import Mathlib

/-!
Shallow embedding of the WinGo prediction bot (src/bot.py) and proofs about
its forecasting, staking, persistence and control logic.

Modelling conventions:
  * The SQLite `rounds` table (primary key `issue`, TEXT) is modelled as a
    list of `Round` records kept strictly sorted by `issue` in descending
    byte order (the order SQLite uses for `ORDER BY issue DESC`); a table is
    a set of rows keyed by its primary key, and the sorted list is its
    canonical representation.  `SELECT ... ORDER BY issue ASC` is the
    reverse of the representation.
  * The `predictions` table (primary key `issue`) is modelled as a list of
    `Forecast` records kept sorted by `created_ts` descending (newest first),
    which is the order used by `ORDER BY created_ts DESC`.  Timestamps are
    modelled as naturals: the code stores ISO-8601 UTC strings, whose
    lexicographic order agrees with chronological order.
  * Python floats for `confidence` are modelled exactly in thousandths
    (a natural number `c` stands for the decimal value `c / 1000`): the code
    rounds every stored confidence to 3 decimal places with `round(conf, 3)`,
    and all confidences that arise are quotients `k / n` with `n ≤ 10`, for
    which rounding the IEEE-754 double agrees with rounding the exact
    rational (no value of the form `k / n`, `n ≤ 10`, lies exactly half way
    between two multiples of 1/1000, so round-half-even and round-half-up
    also agree).  Intermediate unrounded confidences are carried as
    numerator/denominator pairs of naturals.
  * String primitives that the Lean kernel cannot evaluate (iterator based)
    are re-implemented over `String.data`; they agree with the Python and
    SQLite operations they model on all inputs used here (byte-wise TEXT
    comparison, `int(s)` on optionally signed digit strings, `s[-3:]`).
-/

/-! ## String helpers (kernel-evaluable) -/

/-- Byte-wise (code-point) lexicographic strict order on character lists;
this is how SQLite compares TEXT values such as `issue`. -/
def listLtb : List Char → List Char → Bool
  | [], [] => false
  | [], _ :: _ => true
  | _ :: _, [] => false
  | a :: as, b :: bs =>
    if a.toNat < b.toNat then true
    else if b.toNat < a.toNat then false
    else listLtb as bs

/-- Strict lexicographic order on strings (SQLite `ORDER BY` on TEXT). -/
def strLtb (a b : String) : Bool :=
  listLtb a.data b.data

/-- Value of a nonempty all-digit character list, `none` otherwise. -/
def digitsToNat (cs : List Char) : Option Nat :=
  if cs.isEmpty then none
  else if cs.all Char.isDigit then
    some (cs.foldl (fun acc c => acc * 10 + (c.toNat - 48)) 0)
  else none

/-- Python `int(s)` on an optionally signed digit string, `none` when the
conversion raises (the code only ever feeds it issue ids or catches the
exception; surrounding whitespace and underscores are not modelled). -/
def str_to_int (s : String) : Option Int :=
  match s.data with
  | '-' :: rest => (digitsToNat rest).map (fun n => -(n : Int))
  | '+' :: rest => (digitsToNat rest).map (fun n => (n : Int))
  | cs => (digitsToNat cs).map (fun n => (n : Int))

/-- Python `s.isdigit()` restricted to ASCII digit strings (true on a
nonempty all-digit string). -/
def str_isdigit (s : String) : Bool :=
  !s.data.isEmpty && s.data.all Char.isDigit

/-- Python `s[-n:]` (the last `n` characters, the whole string if shorter). -/
def strTakeRight (s : String) (n : Nat) : String :=
  ⟨s.data.drop (s.data.length - n)⟩

/-! ## Configuration constants (src/bot.py lines 36-40) -/

def HISTORY_WINDOW : Nat := 10

def POST_INTERVAL : Nat := 60

def MAX_DISPLAY : Nat := 15

/-! ## Data model -/

/-- One row of the `rounds` table: an observed outcome event.
`issue` is the primary key, `number` the drawn value, `ts` the observation
timestamp (`datetime.utcnow().isoformat()`, modelled as a natural). -/
structure Round where
  issue : String
  number : Int
  color : String
  ts : Nat
deriving DecidableEq

/-- One row of the `predictions` table: an issued forecast.
`issue` is the primary key; `result` is `none` while pending, otherwise
`some "WIN"` or `some "LOSS"`; `confidence` is in thousandths. -/
structure Forecast where
  issue : String
  predicted : String
  confidence : Nat
  multiplier : Int
  created_ts : Nat
  result : Option String
deriving DecidableEq

/-! ## Rounds store (Event Store) -/

/-- `INSERT OR IGNORE INTO rounds` (src/bot.py line 124): insert a row into
the issue-sorted representation; a row whose `issue` is already present is
ignored (first write wins). -/
def insertRound (r : Round) (l : List Round) : List Round :=
  match l with
  | [] => [r]
  | h :: t =>
    if strLtb h.issue r.issue then r :: h :: t
    else if r.issue = h.issue then h :: t
    else h :: insertRound r t

/-- `prune_old_rounds` (src/bot.py lines 82-90): keep only the `max_keep`
greatest issues (`ORDER BY issue DESC LIMIT max_keep`); on the descending
representation this is a prefix. -/
def prune_old_rounds (max_keep : Nat) (l : List Round) : List Round :=
  l.take max_keep

/-- `store_rounds_async` (src/bot.py lines 117-130): no-op on an empty
batch, otherwise insert-or-ignore every row and then prune to 15. -/
def store_rounds_async (batch : List Round) (l : List Round) : List Round :=
  if batch.isEmpty then l
  else prune_old_rounds 15 (batch.foldl (fun s r => insertRound r s) l)

/-- `get_all_rounds` (src/bot.py lines 133-137): all rounds ordered by
`issue ASC`, i.e. the reverse of the descending representation. -/
def get_all_rounds (l : List Round) : List Round :=
  l.reverse

/-! ## Predictions store (Forecast Store) -/

/-- Insert a prediction into the created_ts-descending representation; a
row with the same timestamp as an existing one goes in front of it (the
fresh insert is the more recent row). -/
def insertForecastByTs (p : Forecast) (l : List Forecast) : List Forecast :=
  match l with
  | [] => [p]
  | h :: t =>
    if h.created_ts ≤ p.created_ts then p :: h :: t
    else h :: insertForecastByTs p t

/-- `prune_old_predictions` (src/bot.py lines 93-101): keep only the
`max_keep` most recent rows by `created_ts` (`ORDER BY created_ts DESC
LIMIT max_keep`); on the newest-first representation this is a prefix. -/
def prune_old_predictions (max_keep : Nat) (l : List Forecast) : List Forecast :=
  l.take max_keep

/-- `save_prediction_async` (src/bot.py lines 140-147): `INSERT OR REPLACE
INTO predictions` with `result = NULL` and `created_ts = now`, followed by
`prune_old_predictions(15)`.  REPLACE deletes any existing row with the
same `issue` before inserting the new one. -/
def save_prediction_async (now : Nat) (issue predicted : String)
    (confidence : Nat) (multiplier : Int) (l : List Forecast) : List Forecast :=
  prune_old_predictions 15
    (insertForecastByTs
      { issue := issue, predicted := predicted, confidence := confidence,
        multiplier := multiplier, created_ts := now, result := none }
      (l.filter (fun q => q.issue ≠ issue)))

/-- `update_prediction_result_async` (src/bot.py lines 150-153):
`UPDATE predictions SET result=? WHERE issue=?` — unconditional, with no
guard on the current `result`. -/
def update_prediction_result_async (issue result : String)
    (l : List Forecast) : List Forecast :=
  l.map (fun q => if q.issue = issue then { q with result := some result } else q)

/-- `get_prediction_by_issue` (src/bot.py lines 156-159). -/
def get_prediction_by_issue (issue : String) (l : List Forecast) : Option Forecast :=
  l.find? (fun q => q.issue = issue)

/-- `get_last_prediction` (src/bot.py lines 162-169): the most recent row
by `created_ts` — the head of the newest-first representation. -/
def get_last_prediction (l : List Forecast) : Option Forecast :=
  l.head?

/-! ## Prediction logic -/

/-- `label_big_small` (src/bot.py lines 199-200). -/
def label_big_small (number : Int) : String :=
  if number ≥ 5 then "BIG" else "SMALL"

/-- The trailing window `history[-HISTORY_WINDOW:]` of the ascending
history (src/bot.py line 210). -/
def windowOf (history : List Round) : List Round :=
  if HISTORY_WINDOW ≤ history.length then
    history.drop (history.length - HISTORY_WINDOW)
  else history

/-- Number of rounds in the window labelled BIG (src/bot.py line 211). -/
def bigCount (window : List Round) : Nat :=
  (window.filter (fun r => label_big_small r.number = "BIG")).length

/-- The majority vote of src/bot.py lines 211-219: the predicted label and
the unrounded confidence as a numerator/denominator pair. -/
def predictLabelConf (window : List Round) : String × Nat × Nat :=
  let big := bigCount window
  let small := window.length - big
  if small < big then ("BIG", big, window.length)
  else if big < small then ("SMALL", small, window.length)
  else (label_big_small ((window.getLastD ⟨"", 0, "", 0⟩).number), 1, 2)

/-- Python `round(num/den, 3)` in thousandths, for `0 ≤ num ≤ den`:
round half up (no half-way case actually occurs for `den ≤ 10`). -/
def round3 (num den : Nat) : Nat :=
  (2000 * num + den) / (2 * den)

/-- The next issue id of src/bot.py lines 221-225: increment when the last
window issue parses as an integer, else append the marker `"-n"`. -/
def next_issue_of (last_issue : String) : String :=
  match str_to_int last_issue with
  | some n => toString (n + 1)
  | none => last_issue ++ "-n"

/-- The dynamic multiplier strategy of src/bot.py lines 232-239, as a
function of the most recent prediction's `(result, multiplier)` (the row
returned by `ORDER BY created_ts DESC LIMIT 1`): reset to 1 on WIN,
otherwise double capped at 81; 1 when there is no previous prediction. -/
def next_multiplier (last : Option (Option String × Int)) : Int :=
  match last with
  | none => 1
  | some (result, mult) => if result = some "WIN" then 1 else min (mult * 2) 81

/-- `predict_next_from_db` (src/bot.py lines 203-241): returns
`(next_issue, predicted, confidence, multiplier)` with confidence in
thousandths (0.6 = 600).  On an empty rounds store it returns the fixed
default `("0", "BIG", 0.6, 1)` without consulting the predictions store. -/
def predict_next_from_db (rounds : List Round) (preds : List Forecast) :
    String × String × Nat × Int :=
  let history := get_all_rounds rounds
  if history.isEmpty then ("0", "BIG", 600, 1)
  else
    let window := windowOf history
    let pc := predictLabelConf window
    let last_issue := (window.getLastD ⟨"", 0, "", 0⟩).issue
    let next_issue := next_issue_of last_issue
    let multiplier :=
      next_multiplier ((get_last_prediction preds).map (fun p => (p.result, p.multiplier)))
    (next_issue, pc.1, round3 pc.2.1 pc.2.2, multiplier)

/-- `update_results_with_new_rounds` (src/bot.py lines 244-252): for every
freshly fetched round that has a stored prediction, recompute WIN/LOSS from
the stored `predicted` label and overwrite the stored `result`
(`update_prediction_result_async` is unconditional). -/
def update_results_with_new_rounds (new_rounds : List Round)
    (preds : List Forecast) : List Forecast :=
  new_rounds.foldl
    (fun ps r =>
      match get_prediction_by_issue r.issue ps with
      | some pr =>
          update_prediction_result_async r.issue
            (if pr.predicted = label_big_small r.number then "WIN" else "LOSS") ps
      | none => ps)
    preds

/-! ## Message builder -/

/-- One scoreboard line of src/bot.py lines 263-272. -/
def build_line (preds : List Forecast) (r : Round) : String :=
  let label := label_big_small r.number
  let outcome :=
    match get_prediction_by_issue r.issue preds with
    | some pr =>
        match pr.result with
        | some res => if res = "WIN" then "✅ WIN" else if res = "" then "⏳ Waiting" else "❌ LOSS"
        | none => "⏳ Waiting"
    | none => "⏳ Waiting"
  "🎲 <code>" ++ strTakeRight r.issue 3 ++ "</code> → " ++ toString r.number ++
    " (" ++ label ++ ") | " ++ outcome

/-- `build_message_text` (src/bot.py lines 256-294): the display payload
and the issue of the advertised next trade.  Returns the fixed no-data
payload on an empty rounds store. -/
def build_message_text (rounds : List Round) (preds : List Forecast) : String × String :=
  let rows := get_all_rounds rounds
  if rows.isEmpty then ("❌ No results yet.", "")
  else
    let recent := rows.drop (rows.length - MAX_DISPLAY)
    let body :=
      (("📜 <b>Recent Rounds (Last 15)</b>\n━━━━━━━━━━━━━━━━━━━━━━━" :: recent.map (build_line preds)).intersperse "\n").foldl
        (fun a b => a ++ b) ""
    let lp := get_last_prediction preds
    let next_issue := match lp with | some p => p.issue | none => "???"
    let next_predicted := match lp with | some p => p.predicted | none => "BIG"
    let mult : Int := match lp with | some p => p.multiplier | none => 1
    let header :=
      "🔥 <b>🌟 𝐊𝐎𝐁𝐈𝐑 ✦ 𝐖𝐈𝐍𝐆𝐎 𝟏𝐌 🌟</b> 🔥\n━━━━━━━━━━━━━━━━━━━━━━━\n🤖 <b>Prime Predictions</b>\n"
    let footer :=
      "\n━━━━━━━━━━━━━━━━━━━━━━━\n📊 <b>Next Trade:</b> <code>" ++
        strTakeRight next_issue 3 ++ "</code>\n🔮 Prediction: <b>" ++ next_predicted ++
        "</b>\n💸 Multiplier: <b>" ++ toString mult ++ "x</b>\n⏱ Updates every " ++
        toString POST_INTERVAL ++ "s\n\n⚠️ <b>PLAY AT OWN RISK</b> 🎲"
    (header ++ body ++ footer, next_issue)

/-! ## Worker cycle -/

/-- The two persistent stores (`win_go.db`). -/
structure DB where
  rounds : List Round
  preds : List Forecast
deriving DecidableEq

/-- The forecast-issuance step of `prediction_worker` (src/bot.py lines
312-315): compute the next forecast and save it unless the most recent
stored prediction already has the same issue (`if not last_pred or
last_pred[0] != next_issue`). -/
def issuance_step (now : Nat) (db : DB) : DB :=
  let q := predict_next_from_db db.rounds db.preds
  match get_last_prediction db.preds with
  | none =>
      { db with preds := save_prediction_async now q.1 q.2.1 q.2.2.1 q.2.2.2 db.preds }
  | some p =>
      if p.issue ≠ q.1 then
        { db with preds := save_prediction_async now q.1 q.2.1 q.2.2.1 q.2.2.2 db.preds }
      else db

/-- One iteration of the `prediction_worker` loop (src/bot.py lines
301-329), as a function of the fetched batch: on an empty fetch (which is
also what `fetch_history` returns on any error) the iteration sleeps 10
seconds and retries without touching the stores or composing a message;
otherwise it stores and prunes the rounds, reconciles results, issues the
guarded forecast, composes the display message and sleeps `POST_INTERVAL`.
The returned triple is (new store state, message posted if any, seconds
slept).  A delivery failure does not affect the stores, so delivery is not
modelled beyond the composed text. -/
def prediction_cycle (now : Nat) (fetched : List Round) (db : DB) :
    DB × Option String × Nat :=
  if fetched.isEmpty then (db, none, 10)
  else
    let db1 : DB := { db with rounds := store_rounds_async fetched db.rounds }
    let db2 : DB := { db1 with preds := update_results_with_new_rounds fetched db1.preds }
    let db3 := issuance_step now db2
    (db3, some (build_message_text db3.rounds db3.preds).1, POST_INTERVAL)

/-- A run of consecutive worker iterations (the loop never exits on its
own — only cancellation breaks it — so the fold is over the list of
successive fetch results).  Returns the final store state and the posted
messages in order. -/
def run_cycles (now : Nat) (fetches : List (List Round)) (db : DB) :
    DB × List String :=
  fetches.foldl
    (fun acc f =>
      let step := prediction_cycle now f acc.1
      (step.1, acc.2 ++ step.2.1.toList))
    (db, [])

/-! ## Command surface (start control) -/

/-- The process-wide control state: the persisted `target_chat` config row,
whether `prediction_task` is live (`prediction_task and not
prediction_task.done()`), and how many worker loops have been scheduled and
not cancelled. -/
structure CtrlState where
  target_chat : Option String
  running : Bool
  workers : Nat
deriving DecidableEq

/-- The replies `handle_start_prediction` can produce. -/
inductive StartReply where
  | notAuthorized
  | alreadyRunning
  | started (chat : String)
deriving DecidableEq

/-- The fields of an incoming Telegram message that the handler reads. -/
structure Msg where
  from_id : Int
  chat_id : Int
deriving DecidableEq

/-- `handle_start_prediction` (src/bot.py lines 368-382): refuse
non-admins; resolve the target chat — the stored config when set (parsed as
an int when it is all digits), falling back to the message's own chat when
no target is stored — and persist it back; refuse when a worker is already
live; otherwise schedule a new worker loop. -/
def handle_start_prediction (admin_id : Int) (st : CtrlState) (m : Msg) :
    CtrlState × StartReply :=
  if m.from_id ≠ admin_id then (st, .notAuthorized)
  else
    let chat_id : String :=
      match st.target_chat with
      | none => toString m.chat_id
      | some t =>
          if str_isdigit t then toString (digitsToNat t.data).iget
          else if t = "" then toString m.chat_id
          else t
    let st1 := { st with target_chat := some chat_id }
    if st1.running then (st1, .alreadyRunning)
    else ({ st1 with running := true, workers := st1.workers + 1 }, .started chat_id)

/-! ## Order lemmas for the byte-wise comparator -/

theorem char_eq_of_toNat_eq {a b : Char} (h : a.toNat = b.toNat) : a = b :=
  Char.eq_of_val_eq (UInt32.toNat.inj h)

theorem listLtb_conn : ∀ {as bs : List Char},
    listLtb as bs = false → listLtb bs as = false → as = bs
  | [], [], _, _ => rfl
  | [], _ :: _, h, _ => by simp [listLtb] at h
  | _ :: _, [], _, h => by simp [listLtb] at h
  | a :: as, b :: bs, h1, h2 => by
    simp only [listLtb] at h1 h2
    rcases Nat.lt_trichotomy a.toNat b.toNat with hab | hab | hab
    · rw [if_pos hab] at h1
      simp at h1
    · rw [if_neg (by omega), if_neg (by omega)] at h1
      rw [if_neg (by omega), if_neg (by omega)] at h2
      rw [char_eq_of_toNat_eq hab, listLtb_conn h1 h2]
    · rw [if_pos hab] at h2
      simp at h2

theorem listLtb_trans : ∀ {as bs cs : List Char},
    listLtb as bs = true → listLtb bs cs = true → listLtb as cs = true
  | [], _ :: _, [], _, h2 => by simp [listLtb] at h2
  | [], _, _ :: _, _, _ => by simp [listLtb]
  | [], [], [], h1, _ => by simp [listLtb] at h1
  | _ :: _, [], _, h1, _ => by simp [listLtb] at h1
  | _ :: _, _ :: _, [], _, h2 => by simp [listLtb] at h2
  | a :: as, b :: bs, c :: cs, h1, h2 => by
    simp only [listLtb] at h1 h2 ⊢
    rcases Nat.lt_trichotomy a.toNat b.toNat with hab | hab | hab
    · rcases Nat.lt_trichotomy b.toNat c.toNat with hbc | hbc | hbc
      · rw [if_pos (show a.toNat < c.toNat by omega)]
      · rw [if_pos (show a.toNat < c.toNat by omega)]
      · rw [if_neg (by omega), if_pos hbc] at h2
        simp at h2
    · rw [if_neg (by omega), if_neg (by omega)] at h1
      rcases Nat.lt_trichotomy b.toNat c.toNat with hbc | hbc | hbc
      · rw [if_pos (show a.toNat < c.toNat by omega)]
      · rw [if_neg (by omega), if_neg (by omega)] at h2
        rw [if_neg (by omega), if_neg (by omega)]
        exact listLtb_trans h1 h2
      · rw [if_neg (by omega), if_pos hbc] at h2
        simp at h2
    · rw [if_neg (by omega), if_pos hab] at h1
      simp at h1

theorem strLtb_conn {a b : String} (h1 : strLtb a b = false)
    (h2 : strLtb b a = false) : a = b := by
  cases a; cases b
  exact congrArg String.mk (listLtb_conn h1 h2)

theorem strLtb_trans {a b c : String} (h1 : strLtb a b = true)
    (h2 : strLtb b c = true) : strLtb a c = true :=
  listLtb_trans h1 h2

/-! ## Pruning commutes with insertion (rounds store) -/

theorem take_cons_take (a : Round) (t : List Round) (n : Nat) :
    (a :: t.take n).take n = (a :: t).take n := by
  cases n with
  | zero => simp
  | succ m =>
    simp only [List.take_succ_cons, List.take_take]
    rw [Nat.min_eq_left (Nat.le_succ m)]

theorem insertRound_cons (r h : Round) (t : List Round) :
    insertRound r (h :: t) =
      if strLtb h.issue r.issue then r :: h :: t
      else if r.issue = h.issue then h :: t
      else h :: insertRound r t := rfl

theorem insertRound_take (r : Round) : ∀ (l : List Round) (n : Nat),
    (insertRound r (l.take n)).take n = (insertRound r l).take n := by
  intro l
  induction l with
  | nil => intro n; simp
  | cons h t ih =>
    intro n
    cases n with
    | zero => simp
    | succ m =>
      rw [List.take_succ_cons, insertRound_cons]
      by_cases h1 : strLtb h.issue r.issue = true
      · rw [if_pos h1, insertRound_cons, if_pos h1, List.take_succ_cons,
          List.take_succ_cons, take_cons_take]
      · by_cases h2 : r.issue = h.issue
        · rw [if_neg h1, if_pos h2, insertRound_cons, if_neg h1, if_pos h2,
            List.take_succ_cons, List.take_succ_cons, List.take_take, Nat.min_self]
        · rw [if_neg h1, if_neg h2, insertRound_cons, if_neg h1, if_neg h2,
            List.take_succ_cons, List.take_succ_cons, ih m]

theorem take15_insertRound_congr {l1 l2 : List Round} (r : Round)
    (h : l1.take 15 = l2.take 15) :
    (insertRound r l1).take 15 = (insertRound r l2).take 15 := by
  rw [← insertRound_take r l1 15, h, insertRound_take]

theorem take15_foldl_insert_congr (b : List Round) : ∀ {l1 l2 : List Round},
    l1.take 15 = l2.take 15 →
    (b.foldl (fun s r => insertRound r s) l1).take 15 =
      (b.foldl (fun s r => insertRound r s) l2).take 15 := by
  induction b with
  | nil => intro l1 l2 h; simpa using h
  | cons r b ih =>
    intro l1 l2 h
    exact ih (take15_insertRound_congr r h)

/-! ## The rounds store after a sequence of insert-and-prune batches -/

/-- The rounds store produced by running `store_rounds_async` (insert batch,
then prune to 15) on each batch in turn, starting from an empty table —
the life of the Event Store over any sequence of worker cycles. -/
def run_store (bs : List (List Round)) : List Round :=
  bs.foldl (fun s b => store_rounds_async b s) []

/-- The table that would result from inserting every fetched row with
`INSERT OR IGNORE` and never pruning: the issue-sorted deduplicated list of
all rows ever inserted. -/
def full_store (bs : List (List Round)) : List Round :=
  bs.flatten.foldl (fun s r => insertRound r s) []

theorem run_store_aux : ∀ (bs : List (List Round)) (s1 s2 : List Round),
    s1.take 15 = s2.take 15 →
    bs.foldl (fun s b => store_rounds_async b s) (s1.take 15) =
      (bs.foldl (fun s b => b.foldl (fun u r => insertRound r u) s) s2).take 15 := by
  intro bs
  induction bs with
  | nil => intro s1 s2 h; simpa using h
  | cons b bs ih =>
    intro s1 s2 h
    simp only [List.foldl_cons]
    by_cases hb : b.isEmpty
    · have hb' : b = [] := by
        cases b
        · rfl
        · simp [List.isEmpty] at hb
      subst hb'
      simpa [store_rounds_async] using ih s1 s2 h
    · have step :
        store_rounds_async b (s1.take 15) =
          (b.foldl (fun u r => insertRound r u) (s1.take 15)).take 15 := by
        simp [store_rounds_async, hb, prune_old_rounds]
      rw [step]
      apply ih
      have h15 : (s1.take 15).take 15 = s2.take 15 := by
        rw [List.take_take, Nat.min_self, h]
      exact take15_foldl_insert_congr b h15

theorem run_store_eq_take_full (bs : List (List Round)) :
    run_store bs = (full_store bs).take 15 := by
  have h := run_store_aux bs [] [] rfl
  simpa [run_store, full_store, List.foldl_flatten] using h

/-! ## Sortedness and membership of the rounds store -/

theorem listLtb_irrefl : ∀ as : List Char, listLtb as as = false
  | [] => rfl
  | a :: as => by
    simp only [listLtb]
    rw [if_neg (by omega), if_neg (by omega)]
    exact listLtb_irrefl as

theorem strLtb_irrefl (a : String) : strLtb a a = false :=
  listLtb_irrefl a.data

/-- The invariant of the rounds-store representation: strictly descending
by `issue`. -/
def RoundsSortedDesc (l : List Round) : Prop :=
  l.Pairwise (fun a b => strLtb b.issue a.issue = true)

instance (l : List Round) : Decidable (RoundsSortedDesc l) :=
  inferInstanceAs (Decidable (l.Pairwise (fun (a b : Round) => strLtb b.issue a.issue = true)))

theorem mem_insertRound {y r : Round} : ∀ {l : List Round},
    y ∈ insertRound r l → y = r ∨ y ∈ l := by
  intro l
  induction l with
  | nil =>
    intro h
    simp only [insertRound, List.mem_singleton] at h
    exact Or.inl h
  | cons hd t ih =>
    intro h
    rw [insertRound_cons] at h
    by_cases h1 : strLtb hd.issue r.issue = true
    · rw [if_pos h1] at h
      simp only [List.mem_cons] at h ⊢
      tauto
    · by_cases h2 : r.issue = hd.issue
      · rw [if_neg h1, if_pos h2] at h
        exact Or.inr h
      · rw [if_neg h1, if_neg h2] at h
        simp only [List.mem_cons] at h ⊢
        rcases h with h | h
        · tauto
        · rcases ih h with h3 | h3 <;> tauto

theorem issue_mem_insertRound (i : String) (r : Round) : ∀ (l : List Round),
    (i ∈ (insertRound r l).map Round.issue ↔
      i = r.issue ∨ i ∈ l.map Round.issue) := by
  intro l
  induction l with
  | nil => simp [insertRound]
  | cons hd t ih =>
    rw [insertRound_cons]
    by_cases h1 : strLtb hd.issue r.issue = true
    · rw [if_pos h1]
      simp only [List.map_cons, List.mem_cons]
    · by_cases h2 : r.issue = hd.issue
      · rw [if_neg h1, if_pos h2]
        simp only [List.map_cons, List.mem_cons, h2]
        tauto
      · rw [if_neg h1, if_neg h2]
        simp only [List.map_cons, List.mem_cons] at ih ⊢
        rw [ih]
        tauto

theorem insertRound_sorted (r : Round) : ∀ {l : List Round},
    RoundsSortedDesc l → RoundsSortedDesc (insertRound r l) := by
  intro l
  induction l with
  | nil =>
    intro _
    simp [insertRound, RoundsSortedDesc]
  | cons hd t ih =>
    intro h
    rw [RoundsSortedDesc, List.pairwise_cons] at h
    rw [insertRound_cons]
    by_cases h1 : strLtb hd.issue r.issue = true
    · rw [if_pos h1]
      refine List.Pairwise.cons ?_ (List.Pairwise.cons h.1 h.2)
      intro y hy
      rcases List.mem_cons.mp hy with rfl | hy
      · exact h1
      · exact strLtb_trans (h.1 y hy) h1
    · by_cases h2 : r.issue = hd.issue
      · rw [if_neg h1, if_pos h2]
        exact List.Pairwise.cons h.1 h.2
      · rw [if_neg h1, if_neg h2]
        have hr : strLtb r.issue hd.issue = true := by
          rcases Bool.eq_false_or_eq_true (strLtb r.issue hd.issue) with ht | hf
          · exact ht
          · exact absurd (strLtb_conn (Bool.eq_false_iff.mpr (fun hx => h1 hx)) hf).symm h2
        refine List.Pairwise.cons ?_ (ih h.2)
        intro y hy
        rcases mem_insertRound hy with rfl | hy
        · exact hr
        · exact h.1 y hy

theorem foldl_insert_sorted : ∀ (rs : List Round) (s : List Round),
    RoundsSortedDesc s →
    RoundsSortedDesc (rs.foldl (fun u r => insertRound r u) s) := by
  intro rs
  induction rs with
  | nil => intro s h; simpa using h
  | cons r rs ih =>
    intro s h
    simp only [List.foldl_cons]
    exact ih _ (insertRound_sorted r h)

theorem full_store_sorted (bs : List (List Round)) :
    RoundsSortedDesc (full_store bs) :=
  foldl_insert_sorted _ [] (List.Pairwise.nil)

theorem issue_mem_foldl_insert : ∀ (rs : List Round) (s : List Round) (i : String),
    (i ∈ ((rs.foldl (fun u r => insertRound r u) s).map Round.issue) ↔
      i ∈ s.map Round.issue ∨ i ∈ rs.map Round.issue) := by
  intro rs
  induction rs with
  | nil => intro s i; simp
  | cons r rs ih =>
    intro s i
    simp only [List.foldl_cons, List.map_cons, List.mem_cons]
    rw [ih, issue_mem_insertRound]
    tauto

/-- The deduplicated never-pruned table holds exactly the issues ever
inserted. -/
theorem full_store_issues (bs : List (List Round)) (i : String) :
    i ∈ (full_store bs).map Round.issue ↔ i ∈ bs.flatten.map Round.issue := by
  rw [full_store, issue_mem_foldl_insert]
  simp

/-- In a strictly descending table, the `take n` prefix holds exactly the
issues with fewer than `n` strictly greater issues present. -/
theorem take_mem_sorted : ∀ (l : List Round), RoundsSortedDesc l →
    ∀ (n : Nat) (i : String),
      (i ∈ (l.take n).map Round.issue ↔
        i ∈ l.map Round.issue ∧ l.countP (fun r => strLtb i r.issue) < n) := by
  intro l
  induction l with
  | nil => intro _ n i; simp
  | cons hd t ih =>
    intro h n i
    rw [RoundsSortedDesc, List.pairwise_cons] at h
    cases n with
    | zero => simp
    | succ m =>
      rw [List.take_succ_cons]
      simp only [List.map_cons, List.mem_cons, List.countP_cons]
      rw [ih h.2 m i]
      by_cases hi : i = hd.issue
      · have hpf : strLtb i hd.issue = false := by
          rw [hi]; exact strLtb_irrefl hd.issue
        refine iff_of_true (Or.inl hi) ⟨Or.inl hi, ?_⟩
        have hcnt : t.countP (fun r => strLtb i r.issue) = 0 := by
          rw [List.countP_eq_zero]
          intro y hy
          rcases Bool.eq_false_or_eq_true (strLtb i y.issue) with ht | hf
          · have hyy := strLtb_trans (h.1 y hy) (hi ▸ ht)
            rw [strLtb_irrefl] at hyy
            exact absurd hyy (by simp)
          · exact Bool.eq_false_iff.mp hf
        rw [hcnt, hpf]
        simp
      · by_cases hmem : i ∈ t.map Round.issue
        · have hgt : strLtb i hd.issue = true := by
            rcases List.mem_map.mp hmem with ⟨y, hy, rfl⟩
            exact h.1 y hy
          rw [hgt]
          constructor
          · rintro (hh | ⟨hm, hc⟩)
            · exact absurd hh hi
            · exact ⟨Or.inr hm, by simp; omega⟩
          · rintro ⟨_, hc⟩
            simp at hc
            exact Or.inr ⟨hmem, by omega⟩
        · constructor
          · rintro (hh | ⟨hm, _⟩)
            · exact absurd hh hi
            · exact absurd hm hmem
          · rintro ⟨hm | hm, _⟩
            · exact absurd hm hi
            · exact absurd hm hmem

/-! ## Forecast store lemmas -/

theorem insertForecastByTs_cons (p h : Forecast) (t : List Forecast) :
    insertForecastByTs p (h :: t) =
      if h.created_ts ≤ p.created_ts then p :: h :: t
      else h :: insertForecastByTs p t := rfl

theorem insertForecastByTs_perm (p : Forecast) : ∀ (l : List Forecast),
    (insertForecastByTs p l).Perm (p :: l) := by
  intro l
  induction l with
  | nil => simp [insertForecastByTs]
  | cons h t ih =>
    rw [insertForecastByTs_cons]
    by_cases h1 : h.created_ts ≤ p.created_ts
    · rw [if_pos h1]
    · rw [if_neg h1]
      exact (ih.cons h).trans (List.Perm.swap p h t)

/-- The invariant of the predictions-store representation: newest first. -/
def ForecastsSortedTs (l : List Forecast) : Prop :=
  l.Pairwise (fun a b => b.created_ts ≤ a.created_ts)

instance (l : List Forecast) : Decidable (ForecastsSortedTs l) :=
  inferInstanceAs (Decidable (l.Pairwise (fun (a b : Forecast) => b.created_ts ≤ a.created_ts)))

theorem insertForecastByTs_sorted (p : Forecast) : ∀ {l : List Forecast},
    ForecastsSortedTs l → ForecastsSortedTs (insertForecastByTs p l) := by
  intro l
  induction l with
  | nil => intro _; simp [insertForecastByTs, ForecastsSortedTs]
  | cons h t ih =>
    intro hs
    rw [ForecastsSortedTs, List.pairwise_cons] at hs
    rw [insertForecastByTs_cons]
    by_cases h1 : h.created_ts ≤ p.created_ts
    · rw [if_pos h1]
      refine List.Pairwise.cons ?_ (List.Pairwise.cons hs.1 hs.2)
      intro y hy
      rcases List.mem_cons.mp hy with rfl | hy
      · exact h1
      · exact le_trans (hs.1 y hy) h1
    · rw [if_neg h1]
      refine List.Pairwise.cons ?_ (ih hs.2)
      intro y hy
      rcases List.mem_cons.mp ((insertForecastByTs_perm p t).mem_iff.mp hy) with rfl | hy
      · exact le_of_lt (lt_of_not_le h1)
      · exact hs.1 y hy

/-- No two stored forecasts share an `issue` (the PRIMARY KEY property of
the `predictions` table). -/
def IssuesNodup (l : List Forecast) : Prop :=
  (l.map Forecast.issue).Nodup

instance (l : List Forecast) : Decidable (IssuesNodup l) :=
  inferInstanceAs (Decidable (l.map Forecast.issue).Nodup)

theorem save_prediction_async_nodup (now : Nat) (issue predicted : String)
    (confidence : Nat) (multiplier : Int) {l : List Forecast}
    (h : IssuesNodup l) :
    IssuesNodup (save_prediction_async now issue predicted confidence multiplier l) := by
  rw [IssuesNodup] at h ⊢
  rw [save_prediction_async, prune_old_predictions]
  refine List.Nodup.sublist ((List.take_sublist _ _).map Forecast.issue) ?_
  refine ((insertForecastByTs_perm _ _).map Forecast.issue).nodup_iff.mpr ?_
  rw [List.map_cons]
  refine List.Nodup.cons ?_ ?_
  · intro hmem
    rcases List.mem_map.mp hmem with ⟨q, hq, hqi⟩
    have := (List.mem_filter.mp hq).2
    simp only [decide_eq_true_eq] at this
    exact this hqi
  · exact List.Nodup.sublist ((List.filter_sublist l).map Forecast.issue) h

theorem update_prediction_result_async_issues (issue result : String)
    (l : List Forecast) :
    (update_prediction_result_async issue result l).map Forecast.issue =
      l.map Forecast.issue := by
  rw [update_prediction_result_async, List.map_map]
  refine List.map_congr_left ?_
  intro q _
  by_cases hq : q.issue = issue
  · simp [hq]
  · simp [hq]

theorem update_results_cons (r : Round) (rs : List Round) (l : List Forecast) :
    update_results_with_new_rounds (r :: rs) l =
      update_results_with_new_rounds rs
        (match get_prediction_by_issue r.issue l with
         | some pr =>
             update_prediction_result_async r.issue
               (if pr.predicted = label_big_small r.number then "WIN" else "LOSS") l
         | none => l) := rfl

theorem update_results_nodup (new_rounds : List Round) :
    ∀ {l : List Forecast}, IssuesNodup l →
    IssuesNodup (update_results_with_new_rounds new_rounds l) := by
  induction new_rounds with
  | nil => intro l h; exact h
  | cons r rs ih =>
    intro l h
    rw [update_results_cons]
    cases hpr : get_prediction_by_issue r.issue l with
    | none => exact ih h
    | some pr =>
      refine ih ?_
      rw [IssuesNodup, update_prediction_result_async_issues]
      exact h

/-! ## Bounds on the rounded confidence -/

theorem round3_le_1000 {num den : Nat} (h : num ≤ den) (hd : 0 < den) :
    round3 num den ≤ 1000 := by
  rw [round3]
  have h2 : 2000 * num + den < 1001 * (2 * den) := by omega
  have := (Nat.div_lt_iff_lt_mul (by omega : 0 < 2 * den)).mpr h2
  omega

theorem round3_ge_500 {num den : Nat} (h : den ≤ 2 * num) (hd : 0 < den) :
    500 ≤ round3 num den := by
  rw [round3]
  exact (Nat.le_div_iff_mul_le (by omega : 0 < 2 * den)).mpr (by omega)

theorem bigCount_le (w : List Round) : bigCount w ≤ w.length := by
  rw [bigCount]
  exact List.length_filter_le _ w

/-- Bounds for the confidence produced by the majority vote, after the
3-decimal rounding applied at the return of `predict_next_from_db`. -/
theorem predictLabelConf_round3_bounds (w : List Round) :
    500 ≤ round3 (predictLabelConf w).2.1 (predictLabelConf w).2.2 ∧
      round3 (predictLabelConf w).2.1 (predictLabelConf w).2.2 ≤ 1000 := by
  rw [predictLabelConf]
  have hb := bigCount_le w
  by_cases h1 : w.length - bigCount w < bigCount w
  · rw [if_pos h1]
    show 500 ≤ round3 (bigCount w) w.length ∧ round3 (bigCount w) w.length ≤ 1000
    have hd : 0 < w.length := by omega
    exact ⟨round3_ge_500 (by omega) hd, round3_le_1000 (by omega) hd⟩
  · rw [if_neg h1]
    by_cases h2 : bigCount w < w.length - bigCount w
    · rw [if_pos h2]
      show 500 ≤ round3 (w.length - bigCount w) w.length ∧
        round3 (w.length - bigCount w) w.length ≤ 1000
      have hd : 0 < w.length := by omega
      exact ⟨round3_ge_500 (by omega) hd, round3_le_1000 (by omega) hd⟩
    · rw [if_neg h2]
      show 500 ≤ round3 1 2 ∧ round3 1 2 ≤ 1000
      decide

/-! ## Reference definitions taken from the specification wording -/

/-- The Staking Engine reference definition, written from the spec's words
(§4.3): no previous forecast → 1; previous result WIN → 1; otherwise
(LOSS, or still pending) → min(previous.multiplier * 2, CAP) with CAP = 81. -/
def ref_next_multiplier (last : Option (Option String × Int)) : Int :=
  match last with
  | none => 1
  | some (result, mult) =>
      if result = some "WIN" then 1 else min (mult * 2) 81

/-- The Forecasting Engine rule written from the claim's words: count the
events labelled HIGH (= BIG) and LOW (= SMALL) in the window; predict the
majority label with confidence majority_count / window_size (returned as an
exact fraction); a tie predicts the label of the most recent event in the
window with confidence 1/2. -/
def claim_forecast (window : List Round) : String × Nat × Nat :=
  let high := (window.filter (fun r => label_big_small r.number = "BIG")).length
  let low := (window.filter (fun r => label_big_small r.number = "SMALL")).length
  if low < high then ("BIG", high, window.length)
  else if high < low then ("SMALL", low, window.length)
  else (label_big_small ((window.getLastD ⟨"", 0, "", 0⟩).number), 1, 2)

theorem bigCount_cons (r : Round) (t : List Round) :
    bigCount (r :: t) =
      (if label_big_small r.number = "BIG" then 1 else 0) + bigCount t := by
  rw [bigCount, bigCount, List.filter_cons]
  by_cases hB : label_big_small r.number = "BIG"
  · rw [if_pos (by simp [hB]), if_pos hB, List.length_cons]
    omega
  · rw [if_neg (by simp [hB]), if_neg hB]
    omega

theorem smallCount_eq (w : List Round) :
    (w.filter (fun r => label_big_small r.number = "SMALL")).length =
      w.length - bigCount w := by
  induction w with
  | nil => rfl
  | cons r t ih =>
    have hb := bigCount_le t
    rw [List.filter_cons, bigCount_cons, List.length_cons]
    by_cases hn : (5 : Int) ≤ r.number
    · have hl : label_big_small r.number = "BIG" := by
        rw [label_big_small, if_pos hn]
      rw [if_neg (by rw [hl]; decide), if_pos hl, ih]
      omega
    · have hl : label_big_small r.number = "SMALL" := by
        rw [label_big_small, if_neg hn]
      rw [if_pos (by rw [hl]; decide), if_neg (by rw [hl]; decide), List.length_cons, ih]
      omega

theorem predictLabelConf_eq_claim (w : List Round) :
    predictLabelConf w = claim_forecast w := by
  rw [predictLabelConf, claim_forecast, smallCount_eq]
  rw [bigCount]

/-- On a non-empty rounds store the returned multiplier is exactly the
staking function of the most recent stored prediction. -/
theorem predict_multiplier_eq (rs : List Round) (ps : List Forecast)
    (h : rs ≠ []) :
    (predict_next_from_db rs ps).2.2.2 =
      next_multiplier ((get_last_prediction ps).map (fun p => (p.result, p.multiplier))) := by
  have hne : ¬((get_all_rounds rs).isEmpty = true) := by
    rw [get_all_rounds]
    simp [h]
  simp only [predict_next_from_db]
  rw [if_neg hne]

/-- On a non-empty rounds store the returned label and confidence come from
the majority vote over the trailing window, with 3-decimal rounding. -/
theorem predict_label_conf_eq (rs : List Round) (ps : List Forecast)
    (h : rs ≠ []) :
    (predict_next_from_db rs ps).2.1 =
        (predictLabelConf (windowOf (get_all_rounds rs))).1 ∧
      (predict_next_from_db rs ps).2.2.1 =
        round3 (predictLabelConf (windowOf (get_all_rounds rs))).2.1
          (predictLabelConf (windowOf (get_all_rounds rs))).2.2 := by
  have hne : ¬((get_all_rounds rs).isEmpty = true) := by
    rw [get_all_rounds]
    simp [h]
  simp only [predict_next_from_db]
  rw [if_neg hne]
  exact ⟨rfl, rfl⟩

/-! ## Claim theorems -/

/-- C3: the staking function equals the reference definition — with no
previous forecast the next multiplier is 1; if the previous forecast's
result is WIN it is 1; otherwise (LOSS or still pending, result NULL) it is
min(previous.multiplier * 2, 81).  Consequently it never exceeds 81
(previous (LOSS, 4) gives 8 and previous (LOSS, 64) gives 81, not 128), is
monotone non-decreasing under LOSS/pending inputs on the multiplier domain
1..81, and resets to 1 immediately after a WIN. -/
theorem staking_matches_reference :
    (∀ last, next_multiplier last = ref_next_multiplier last) ∧
    (∀ last, next_multiplier last ≤ 81) ∧
    (∀ (r : Option String) (m : Int), r ≠ some "WIN" → 1 ≤ m → m ≤ 81 →
      m ≤ next_multiplier (some (r, m))) ∧
    (∀ m : Int, next_multiplier (some (some "WIN", m)) = 1) ∧
    next_multiplier none = 1 ∧
    next_multiplier (some (some "LOSS", 4)) = 8 ∧
    next_multiplier (some (some "LOSS", 64)) = 81 ∧
    next_multiplier (some (none, 4)) = 8 := by
  refine ⟨fun last => rfl, ?_, ?_, fun m => rfl, rfl, by decide, by decide, by decide⟩
  · intro last
    rcases last with _ | ⟨r, m⟩
    · decide
    · rw [next_multiplier]
      by_cases hr : r = some "WIN"
      · rw [if_pos hr]
        decide
      · rw [if_neg hr]
        exact min_le_right _ _
  · intro r m hr h1 h81
    rw [next_multiplier, if_neg hr]
    omega

/-- Witness for the hypotheses of the C3 theorem: the monotonicity
conjunct applied at a LOSS with multiplier 4. -/
theorem staking_matches_reference_witness :
    (some "LOSS" ≠ some "WIN") ∧ ((1 : Int) ≤ 4) ∧ ((4 : Int) ≤ 81) ∧
      (4 : Int) ≤ next_multiplier (some (some "LOSS", 4)) :=
  ⟨by decide, by decide, by decide,
    staking_matches_reference.2.2.1 (some "LOSS") 4 (by decide) (by decide) (by decide)⟩

/-- C10: every confidence the engine returns lies in [0.5, 1] (in
thousandths: between 500 and 1000): the empty-history default is 0.6, a
strict majority yields a rounded majority_count/window_size strictly above
one half, and a tie yields exactly 0.5. -/
theorem confidence_in_range :
    ∀ (rounds : List Round) (preds : List Forecast),
      500 ≤ (predict_next_from_db rounds preds).2.2.1 ∧
      (predict_next_from_db rounds preds).2.2.1 ≤ 1000 ∧
      (rounds = [] → (predict_next_from_db rounds preds).2.2.1 = 600) := by
  intro rounds preds
  by_cases h : rounds = []
  · subst h
    refine ⟨?_, ?_, fun _ => rfl⟩
    · show 500 ≤ 600
      decide
    · show (600 : Nat) ≤ 1000
      decide
  · have hlc := predict_label_conf_eq rounds preds h
    have hb := predictLabelConf_round3_bounds (windowOf (get_all_rounds rounds))
    refine ⟨?_, ?_, fun he => absurd he h⟩
    · rw [hlc.2]
      exact hb.1
    · rw [hlc.2]
      exact hb.2

/-- Witness for the hypothesis inside the C10 theorem: the empty-store
conjunct evaluated at the empty store. -/
theorem confidence_in_range_witness :
    500 ≤ (predict_next_from_db [] []).2.2.1 ∧
      (predict_next_from_db [] []).2.2.1 ≤ 1000 ∧
      (predict_next_from_db [] []).2.2.1 = 600 :=
  ⟨(confidence_in_range [] []).1, (confidence_in_range [] []).2.1,
    (confidence_in_range [] []).2.2 rfl⟩

/-- C9 counterexample: two store states with the *same* predictions store
(latest forecast: result LOSS, multiplier 4) but different event stores
produce different next multipliers — the code's empty-history early return
(src/bot.py line 207) yields multiplier 1 without consulting the staking
engine, while a non-empty event store yields min(4*2, 81) = 8.  The
multiplier therefore does depend on the event store's contents, refuting
the claim as stated. -/
theorem multiplier_reads_event_store :
    (predict_next_from_db [] [⟨"50", "BIG", 500, 4, 1, some "LOSS"⟩]).2.2.2 = 1 ∧
    (predict_next_from_db [⟨"100", 7, "", 0⟩]
      [⟨"50", "BIG", 500, 4, 1, some "LOSS"⟩]).2.2.2 = 8 ∧
    (1 : Int) ≠ 8 := by
  decide

/-- C9 amended: when the event store is empty the engine returns the fixed
default forecast ("0", BIG, 0.6, multiplier 1) regardless of the forecast
store; when both event stores are non-empty (the worker's normal regime),
the next multiplier is a function of only the most recent forecast's
(result, multiplier) — two states agreeing on those (including both having
no forecast at all) get the same multiplier, regardless of the event
stores' contents and of all older forecasts. -/
theorem multiplier_depends_only_on_latest :
    (∀ (rs1 rs2 : List Round) (ps1 ps2 : List Forecast),
      rs1 ≠ [] → rs2 ≠ [] →
      (get_last_prediction ps1).map (fun p => (p.result, p.multiplier)) =
        (get_last_prediction ps2).map (fun p => (p.result, p.multiplier)) →
      (predict_next_from_db rs1 ps1).2.2.2 = (predict_next_from_db rs2 ps2).2.2.2) ∧
    (∀ preds : List Forecast, predict_next_from_db [] preds = ("0", "BIG", 600, 1)) := by
  constructor
  · intro rs1 rs2 ps1 ps2 h1 h2 hps
    rw [predict_multiplier_eq rs1 ps1 h1, predict_multiplier_eq rs2 ps2 h2, hps]
  · intro preds
    rfl

/-- Witness for the hypotheses of the C9 amended theorem: two different
non-empty event stores with the same single stored forecast get the same
multiplier. -/
theorem multiplier_depends_only_on_latest_witness :
    (([⟨"100", 7, "", 0⟩] : List Round) ≠ []) ∧
    (([⟨"300", 2, "", 0⟩] : List Round) ≠ []) ∧
    ((get_last_prediction [⟨"50", "BIG", 500, 4, 1, some "LOSS"⟩]).map
        (fun p => (p.result, p.multiplier)) =
      (get_last_prediction [⟨"50", "BIG", 500, 4, 1, some "LOSS"⟩]).map
        (fun p => (p.result, p.multiplier))) ∧
    (predict_next_from_db [⟨"100", 7, "", 0⟩]
        [⟨"50", "BIG", 500, 4, 1, some "LOSS"⟩]).2.2.2 =
      (predict_next_from_db [⟨"300", 2, "", 0⟩]
        [⟨"50", "BIG", 500, 4, 1, some "LOSS"⟩]).2.2.2 :=
  ⟨by decide, by decide, rfl,
    multiplier_depends_only_on_latest.1 _ _ _ _ (by decide) (by decide) rfl⟩

/-- C5 counterexample: with nine stored rounds of which seven are labelled
BIG, the returned confidence is 0.778 (thousandths: 778), while
majority_count / window_size is 7/9 — and 778/1000 ≠ 7/9 since
778 * 9 ≠ 7 * 1000.  The claim's "confidence is majority_count /
window_size" therefore fails for window sizes whose fractions do not
terminate in three decimals; the code stores `round(conf, 3)`. -/
theorem confidence_not_exact_fraction :
    (predict_next_from_db
      [⟨"109", 7, "", 0⟩, ⟨"108", 8, "", 0⟩, ⟨"107", 9, "", 0⟩, ⟨"106", 5, "", 0⟩,
       ⟨"105", 6, "", 0⟩, ⟨"104", 1, "", 0⟩, ⟨"103", 7, "", 0⟩, ⟨"102", 2, "", 0⟩,
       ⟨"101", 8, "", 0⟩] []).2.2.1 = 778 ∧
    bigCount (windowOf (get_all_rounds
      [⟨"109", 7, "", 0⟩, ⟨"108", 8, "", 0⟩, ⟨"107", 9, "", 0⟩, ⟨"106", 5, "", 0⟩,
       ⟨"105", 6, "", 0⟩, ⟨"104", 1, "", 0⟩, ⟨"103", 7, "", 0⟩, ⟨"102", 2, "", 0⟩,
       ⟨"101", 8, "", 0⟩])) = 7 ∧
    (windowOf (get_all_rounds
      [⟨"109", 7, "", 0⟩, ⟨"108", 8, "", 0⟩, ⟨"107", 9, "", 0⟩, ⟨"106", 5, "", 0⟩,
       ⟨"105", 6, "", 0⟩, ⟨"104", 1, "", 0⟩, ⟨"103", 7, "", 0⟩, ⟨"102", 2, "", 0⟩,
       ⟨"101", 8, "", 0⟩])).length = 9 ∧
    778 * 9 ≠ 7 * 1000 := by
  refine ⟨by decide, by decide, by decide, by decide⟩

/-- C5 amended: over the window of the most recent 10 events (all events
if fewer), the engine predicts the majority BIG/SMALL (= HIGH/LOW) label;
the stored confidence is majority_count / window_size rounded to three
decimal places (equal to the exact fraction whenever it terminates in
three decimals, as with a full window of 10); a tie predicts the label of
the most recent event in the window with confidence exactly 0.5.  In
particular the scenario window with 8 SMALL and 2 BIG events predicts
SMALL with confidence exactly 0.8. -/
theorem forecast_majority_vote :
    (∀ (rs : List Round) (ps : List Forecast), rs ≠ [] →
      (predict_next_from_db rs ps).2.1 =
          (claim_forecast (windowOf (get_all_rounds rs))).1 ∧
        (predict_next_from_db rs ps).2.2.1 =
          round3 (claim_forecast (windowOf (get_all_rounds rs))).2.1
            (claim_forecast (windowOf (get_all_rounds rs))).2.2) ∧
    (predict_next_from_db
      [⟨"210", 1, "", 0⟩, ⟨"209", 2, "", 0⟩, ⟨"208", 1, "", 0⟩, ⟨"207", 9, "", 0⟩,
       ⟨"206", 0, "", 0⟩, ⟨"205", 3, "", 0⟩, ⟨"204", 2, "", 0⟩, ⟨"203", 7, "", 0⟩,
       ⟨"202", 1, "", 0⟩, ⟨"201", 4, "", 0⟩] []).2.1 = "SMALL" ∧
    (predict_next_from_db
      [⟨"210", 1, "", 0⟩, ⟨"209", 2, "", 0⟩, ⟨"208", 1, "", 0⟩, ⟨"207", 9, "", 0⟩,
       ⟨"206", 0, "", 0⟩, ⟨"205", 3, "", 0⟩, ⟨"204", 2, "", 0⟩, ⟨"203", 7, "", 0⟩,
       ⟨"202", 1, "", 0⟩, ⟨"201", 4, "", 0⟩] []).2.2.1 = 800 := by
  refine ⟨?_, by decide, by decide⟩
  intro rs ps h
  have hlc := predict_label_conf_eq rs ps h
  rw [predictLabelConf_eq_claim] at hlc
  exact hlc

/-- Witness for the hypothesis of the C5 amended theorem: the refinement
applied at the scenario store. -/
theorem forecast_majority_vote_witness :
    (([⟨"210", 1, "", 0⟩, ⟨"209", 2, "", 0⟩, ⟨"208", 1, "", 0⟩, ⟨"207", 9, "", 0⟩,
       ⟨"206", 0, "", 0⟩, ⟨"205", 3, "", 0⟩, ⟨"204", 2, "", 0⟩, ⟨"203", 7, "", 0⟩,
       ⟨"202", 1, "", 0⟩, ⟨"201", 4, "", 0⟩] : List Round) ≠ []) ∧
    ((predict_next_from_db
      [⟨"210", 1, "", 0⟩, ⟨"209", 2, "", 0⟩, ⟨"208", 1, "", 0⟩, ⟨"207", 9, "", 0⟩,
       ⟨"206", 0, "", 0⟩, ⟨"205", 3, "", 0⟩, ⟨"204", 2, "", 0⟩, ⟨"203", 7, "", 0⟩,
       ⟨"202", 1, "", 0⟩, ⟨"201", 4, "", 0⟩] []).2.1 =
        (claim_forecast (windowOf (get_all_rounds
      [⟨"210", 1, "", 0⟩, ⟨"209", 2, "", 0⟩, ⟨"208", 1, "", 0⟩, ⟨"207", 9, "", 0⟩,
       ⟨"206", 0, "", 0⟩, ⟨"205", 3, "", 0⟩, ⟨"204", 2, "", 0⟩, ⟨"203", 7, "", 0⟩,
       ⟨"202", 1, "", 0⟩, ⟨"201", 4, "", 0⟩]))).1 ∧
      (predict_next_from_db
      [⟨"210", 1, "", 0⟩, ⟨"209", 2, "", 0⟩, ⟨"208", 1, "", 0⟩, ⟨"207", 9, "", 0⟩,
       ⟨"206", 0, "", 0⟩, ⟨"205", 3, "", 0⟩, ⟨"204", 2, "", 0⟩, ⟨"203", 7, "", 0⟩,
       ⟨"202", 1, "", 0⟩, ⟨"201", 4, "", 0⟩] []).2.2.1 =
        round3 (claim_forecast (windowOf (get_all_rounds
      [⟨"210", 1, "", 0⟩, ⟨"209", 2, "", 0⟩, ⟨"208", 1, "", 0⟩, ⟨"207", 9, "", 0⟩,
       ⟨"206", 0, "", 0⟩, ⟨"205", 3, "", 0⟩, ⟨"204", 2, "", 0⟩, ⟨"203", 7, "", 0⟩,
       ⟨"202", 1, "", 0⟩, ⟨"201", 4, "", 0⟩]))).2.1
          (claim_forecast (windowOf (get_all_rounds
      [⟨"210", 1, "", 0⟩, ⟨"209", 2, "", 0⟩, ⟨"208", 1, "", 0⟩, ⟨"207", 9, "", 0⟩,
       ⟨"206", 0, "", 0⟩, ⟨"205", 3, "", 0⟩, ⟨"204", 2, "", 0⟩, ⟨"203", 7, "", 0⟩,
       ⟨"202", 1, "", 0⟩, ⟨"201", 4, "", 0⟩]))).2.2) :=
  ⟨by decide, forecast_majority_vote.1 _ [] (by decide)⟩

/-- C2 counterexample: resolving the same stored forecast twice with
different results keeps the result of the *second* call, not the first —
after WIN then LOSS the stored result is LOSS. -/
theorem resolve_overwrites_result :
    (get_prediction_by_issue "1"
      (update_prediction_result_async "1" "LOSS"
        (update_prediction_result_async "1" "WIN"
          [⟨"1", "BIG", 500, 1, 0, none⟩]))).map Forecast.result =
      some (some "LOSS") ∧
    some (some "LOSS") ≠ (some (some "WIN") : Option (Option String)) := by
  refine ⟨by decide, by decide⟩

/-- C2 amended: `update_prediction_result_async` (the code's
resolve_forecast) sets the result unconditionally — it has no PENDING
guard, so a second resolution overwrites the first (last write wins, shown
as an absorption law), and a result that has moved to WIN or LOSS can be
changed again.  Resolving an event_id with no stored forecast is a no-op. -/
theorem resolve_last_write_wins :
    (∀ (issue r1 r2 : String) (l : List Forecast),
      update_prediction_result_async issue r2
          (update_prediction_result_async issue r1 l) =
        update_prediction_result_async issue r2 l) ∧
    (∀ (issue r : String) (l : List Forecast), (∀ p ∈ l, p.issue ≠ issue) →
      update_prediction_result_async issue r l = l) := by
  constructor
  · intro issue r1 r2 l
    rw [update_prediction_result_async, update_prediction_result_async,
      update_prediction_result_async, List.map_map]
    refine List.map_congr_left ?_
    intro q _
    by_cases hq : q.issue = issue
    · simp [hq]
    · simp [hq]
  · intro issue r l h
    rw [update_prediction_result_async]
    have hid : ∀ q ∈ l, (if q.issue = issue then { q with result := some r } else q) = id q := by
      intro q hq
      rw [if_neg (h q hq)]
      rfl
    rw [List.map_congr_left hid, List.map_id]

/-- Witness for the hypothesis of the C2 amended theorem: resolving an
absent id leaves the store unchanged. -/
theorem resolve_last_write_wins_witness :
    (∀ p ∈ ([⟨"1", "BIG", 500, 1, 0, none⟩] : List Forecast), p.issue ≠ "9") ∧
      update_prediction_result_async "9" "WIN" [⟨"1", "BIG", 500, 1, 0, none⟩] =
        [⟨"1", "BIG", 500, 1, 0, none⟩] :=
  ⟨by decide, resolve_last_write_wins.2 "9" "WIN" _ (by decide)⟩

/-- C1 counterexample: re-issuing a forecast for an event_id that already
has a stored forecast is not always a no-op.  With rounds store
{issue "100"} the next issue is "101"; the predictions store holds a
forecast for "102" (most recent, pending) and an older resolved forecast
for "101" (result WIN, multiplier 3).  The worker's guard compares
next_issue only against the *most recent* prediction ("102" ≠ "101"), so
`save_prediction_async` runs and its INSERT OR REPLACE overwrites the
stored "101" forecast: its result drops from WIN back to NULL (and its
multiplier and created timestamp change). -/
theorem issuance_overwrites_older_forecast :
    (get_prediction_by_issue "101"
        [⟨"102", "BIG", 1000, 1, 2, none⟩,
         ⟨"101", "BIG", 1000, 3, 1, some "WIN"⟩]).map Forecast.result =
      some (some "WIN") ∧
    (get_prediction_by_issue "101"
        (issuance_step 5
          ⟨[⟨"100", 7, "", 0⟩],
           [⟨"102", "BIG", 1000, 1, 2, none⟩,
            ⟨"101", "BIG", 1000, 3, 1, some "WIN"⟩]⟩).preds).map Forecast.result =
      some none ∧
    (some (some "WIN") : Option (Option String)) ≠ some none := by
  refine ⟨by decide, by decide, by decide⟩

/-- C1 amended: at most one forecast is ever stored per event_id (the
primary-key property: issuance preserves distinctness of stored issues),
and the idempotency guard protects only the most recent forecast —
when the stored forecast whose issue equals the computed next issue is the
most recent one, the issuance step is a no-op; re-issuing for an event_id
whose forecast is older than the latest one overwrites it. -/
theorem issuance_guarded_by_latest :
    (∀ (now : Nat) (db : DB), IssuesNodup db.preds →
      IssuesNodup (issuance_step now db).preds) ∧
    (∀ (now : Nat) (db : DB) (p : Forecast),
      get_last_prediction db.preds = some p →
      p.issue = (predict_next_from_db db.rounds db.preds).1 →
      issuance_step now db = db) := by
  constructor
  · intro now db h
    rw [issuance_step]
    split
    · exact save_prediction_async_nodup _ _ _ _ _ h
    · split
      · exact save_prediction_async_nodup _ _ _ _ _ h
      · exact h
  · intro now db p hlp hip
    rw [issuance_step, hlp]
    split
    next heq => exact absurd heq (by simp)
    next q heq =>
      have hq : p = q := Option.some.inj heq
      subst hq
      rw [if_neg (fun hne => hne hip)]

/-- Witness for the hypotheses of the C1 amended theorem: a store whose
most recent forecast already carries the next issue ("101") is left
untouched by the issuance step, and issue distinctness is preserved. -/
theorem issuance_guarded_by_latest_witness :
    IssuesNodup (DB.preds ⟨[⟨"100", 7, "", 0⟩],
        [⟨"101", "BIG", 1000, 2, 1, none⟩]⟩) ∧
    get_last_prediction (DB.preds ⟨[⟨"100", 7, "", 0⟩],
        [⟨"101", "BIG", 1000, 2, 1, none⟩]⟩) =
      some ⟨"101", "BIG", 1000, 2, 1, none⟩ ∧
    (⟨"101", "BIG", 1000, 2, 1, none⟩ : Forecast).issue =
      (predict_next_from_db
        (DB.rounds ⟨[⟨"100", 7, "", 0⟩], [⟨"101", "BIG", 1000, 2, 1, none⟩]⟩)
        (DB.preds ⟨[⟨"100", 7, "", 0⟩], [⟨"101", "BIG", 1000, 2, 1, none⟩]⟩)).1 ∧
    IssuesNodup (issuance_step 5 ⟨[⟨"100", 7, "", 0⟩],
        [⟨"101", "BIG", 1000, 2, 1, none⟩]⟩).preds ∧
    issuance_step 5 ⟨[⟨"100", 7, "", 0⟩], [⟨"101", "BIG", 1000, 2, 1, none⟩]⟩ =
      ⟨[⟨"100", 7, "", 0⟩], [⟨"101", "BIG", 1000, 2, 1, none⟩]⟩ :=
  ⟨by decide, by decide, by decide,
    issuance_guarded_by_latest.1 5 _ (by decide),
    issuance_guarded_by_latest.2 5 _ ⟨"101", "BIG", 1000, 2, 1, none⟩
      (by decide) (by decide)⟩

/-- C4: bounded storage.  Events: for every sequence of insert batches
(each batch followed by its prune, as `store_rounds_async` does), the
resulting store — and hence `list_events_ordered` = `get_all_rounds` —
never holds more than 15 entries, and equals exactly the first 15 entries
of the issue-descending deduplicated table of everything ever inserted: a
stored issue is exactly an inserted issue with fewer than 15 distinct
strictly greater inserted issues (the 15 greatest by id ordering).
Forecasts: a `save_prediction_async` (insert-or-replace plus prune) leaves
at most 15 forecasts, keeps the newest-first order, and every forecast it
drops is no more recent than every forecast it keeps (the store holds the
15 most recent by creation time). -/
theorem bounded_storage :
    (∀ bs : List (List Round),
      (run_store bs).length ≤ 15 ∧
      (get_all_rounds (run_store bs)).length ≤ 15 ∧
      run_store bs = (full_store bs).take 15 ∧
      RoundsSortedDesc (full_store bs) ∧
      (∀ i, i ∈ (full_store bs).map Round.issue ↔ i ∈ bs.flatten.map Round.issue) ∧
      (∀ i, i ∈ (run_store bs).map Round.issue ↔
        i ∈ (full_store bs).map Round.issue ∧
          (full_store bs).countP (fun r => strLtb i r.issue) < 15)) ∧
    (∀ (now : Nat) (issue predicted : String) (confidence : Nat)
       (multiplier : Int) (l : List Forecast),
      (save_prediction_async now issue predicted confidence multiplier l).length ≤ 15 ∧
      (ForecastsSortedTs l →
        ForecastsSortedTs (save_prediction_async now issue predicted confidence multiplier l) ∧
        (∀ p ∈ save_prediction_async now issue predicted confidence multiplier l,
         ∀ q ∈ (insertForecastByTs
                  ⟨issue, predicted, confidence, multiplier, now, none⟩
                  (l.filter (fun x => x.issue ≠ issue))).drop 15,
          q.created_ts ≤ p.created_ts))) := by
  constructor
  · intro bs
    have heq := run_store_eq_take_full bs
    refine ⟨?_, ?_, heq, full_store_sorted bs, full_store_issues bs, ?_⟩
    · rw [heq, List.length_take]
      omega
    · rw [get_all_rounds, List.length_reverse, heq, List.length_take]
      omega
    · intro i
      rw [heq, take_mem_sorted (full_store bs) (full_store_sorted bs) 15 i]
  · intro now issue predicted confidence multiplier l
    constructor
    · rw [save_prediction_async, prune_old_predictions, List.length_take]
      omega
    · intro hs
      have hfs : ForecastsSortedTs
          (insertForecastByTs ⟨issue, predicted, confidence, multiplier, now, none⟩
            (l.filter (fun x => x.issue ≠ issue))) :=
        insertForecastByTs_sorted _
          (List.Pairwise.sublist (List.filter_sublist l) hs)
      constructor
      · exact List.Pairwise.sublist (List.take_sublist _ _) hfs
      · intro p hp q hq
        have happ :
            (((insertForecastByTs
                ⟨issue, predicted, confidence, multiplier, now, none⟩
                (l.filter (fun x => x.issue ≠ issue))).take 15) ++
              ((insertForecastByTs
                ⟨issue, predicted, confidence, multiplier, now, none⟩
                (l.filter (fun x => x.issue ≠ issue))).drop 15)).Pairwise
              (fun a b => b.created_ts ≤ a.created_ts) := by
          rw [List.take_append_drop]
          exact hfs
        exact (List.pairwise_append.mp happ).2.2 p hp q hq

/-- Witness for the hypothesis of the C4 theorem: a concrete sorted
forecast store stays sorted, bounded and newest-first through
`save_prediction_async`. -/
theorem bounded_storage_witness :
    ForecastsSortedTs
        [⟨"7", "BIG", 600, 1, 3, none⟩, ⟨"5", "BIG", 600, 1, 1, some "WIN"⟩] ∧
      (ForecastsSortedTs
          (save_prediction_async 9 "8" "BIG" 600 2
            [⟨"7", "BIG", 600, 1, 3, none⟩, ⟨"5", "BIG", 600, 1, 1, some "WIN"⟩]) ∧
        (∀ p ∈ save_prediction_async 9 "8" "BIG" 600 2
            [⟨"7", "BIG", 600, 1, 3, none⟩, ⟨"5", "BIG", 600, 1, 1, some "WIN"⟩],
         ∀ q ∈ (insertForecastByTs ⟨"8", "BIG", 600, 2, 9, none⟩
            ([⟨"7", "BIG", 600, 1, 3, none⟩,
              ⟨"5", "BIG", 600, 1, 1, some "WIN"⟩].filter
              (fun x => x.issue ≠ "8"))).drop 15,
          q.created_ts ≤ p.created_ts)) :=
  ⟨by decide, (bounded_storage.2 9 "8" "BIG" 600 2 _).2 (by decide)⟩

/-- C6 counterexample: an authorized start request while no destination is
stored is *not* refused — the handler falls back to the requesting chat,
persists it as the new target (a state change), and starts the worker. -/
theorem start_with_no_target_starts_worker :
    (handle_start_prediction 1 ⟨none, false, 0⟩ ⟨1, 555⟩).1.running = true ∧
    (handle_start_prediction 1 ⟨none, false, 0⟩ ⟨1, 555⟩).2 =
      StartReply.started "555" ∧
    (handle_start_prediction 1 ⟨none, false, 0⟩ ⟨1, 555⟩).1 ≠
      (⟨none, false, 0⟩ : CtrlState) := by
  refine ⟨by decide, by decide, by decide⟩

/-- C6 amended: when no destination is registered, an authorized start
request does not refuse: it defaults the destination to the requesting
chat, persists it in the config store, and starts the worker, replying
with the started message. -/
theorem start_with_no_target_defaults_to_caller :
    ∀ (admin : Int) (st : CtrlState) (m : Msg),
      m.from_id = admin → st.target_chat = none → st.running = false →
      handle_start_prediction admin st m =
        (⟨some (toString m.chat_id), true, st.workers + 1⟩,
          StartReply.started (toString m.chat_id)) := by
  intro admin st m h1 h2 h3
  rw [handle_start_prediction, if_neg (fun hne => hne h1), h2]
  split
  · simp [h3]
  · simp_all

/-- Witness for the hypotheses of the C6 amended theorem. -/
theorem start_with_no_target_defaults_to_caller_witness :
    ((⟨1, 555⟩ : Msg).from_id = 1) ∧
      ((⟨none, false, 0⟩ : CtrlState).target_chat = none) ∧
      ((⟨none, false, 0⟩ : CtrlState).running = false) ∧
      handle_start_prediction 1 ⟨none, false, 0⟩ ⟨1, 555⟩ =
        (⟨some "555", true, 1⟩, StartReply.started "555") :=
  ⟨rfl, rfl, rfl,
    start_with_no_target_defaults_to_caller 1 ⟨none, false, 0⟩ ⟨1, 555⟩ rfl rfl rfl⟩

/-- C7: an authorized start command issued while the worker is already
live is rejected with the already-running reply, schedules no second loop
(the worker count is unchanged), and leaves the worker live; in particular
with exactly one loop active, exactly one remains. -/
theorem start_while_running_rejected :
    ∀ (admin : Int) (st : CtrlState) (m : Msg),
      m.from_id = admin → st.running = true →
      (handle_start_prediction admin st m).2 = StartReply.alreadyRunning ∧
      (handle_start_prediction admin st m).1.workers = st.workers ∧
      (handle_start_prediction admin st m).1.running = true ∧
      (st.workers = 1 → (handle_start_prediction admin st m).1.workers = 1) := by
  intro admin st m h1 h2
  rw [handle_start_prediction, if_neg (fun hne => hne h1)]
  split <;> simp [h2]

/-- Witness for the hypotheses of the C7 theorem. -/
theorem start_while_running_rejected_witness :
    ((⟨1, 555⟩ : Msg).from_id = 1) ∧
      ((⟨some "777", true, 1⟩ : CtrlState).running = true) ∧
      ((handle_start_prediction 1 ⟨some "777", true, 1⟩ ⟨1, 555⟩).2 =
          StartReply.alreadyRunning ∧
        (handle_start_prediction 1 ⟨some "777", true, 1⟩ ⟨1, 555⟩).1.workers = 1 ∧
        (handle_start_prediction 1 ⟨some "777", true, 1⟩ ⟨1, 555⟩).1.running = true) :=
  ⟨rfl, rfl, (start_while_running_rejected 1 ⟨some "777", true, 1⟩ ⟨1, 555⟩ rfl rfl).1,
    (start_while_running_rejected 1 ⟨some "777", true, 1⟩ ⟨1, 555⟩ rfl rfl).2.1,
    (start_while_running_rejected 1 ⟨some "777", true, 1⟩ ⟨1, 555⟩ rfl rfl).2.2.1⟩

theorem prediction_cycle_empty (now : Nat) (db : DB) :
    prediction_cycle now [] db = (db, none, 10) := rfl

theorem run_cycles_aux (now : Nat) : ∀ (fetches : List (List Round)) (db : DB)
    (msgs : List String),
    (∀ f ∈ fetches, f = []) →
    fetches.foldl
      (fun acc f =>
        let step := prediction_cycle now f acc.1
        (step.1, acc.2 ++ step.2.1.toList)) (db, msgs) = (db, msgs) := by
  intro fetches
  induction fetches with
  | nil => intro db msgs h; rfl
  | cons f fs ih =>
    intro db msgs h
    have hf : f = [] := h f (List.mem_cons_self f fs)
    subst hf
    simp only [List.foldl_cons, prediction_cycle_empty, Option.toList_none,
      List.append_nil]
    exact ih db msgs (fun g hg => h g (List.mem_cons_of_mem [] hg))

/-- C8: a worker iteration whose fetch failed or returned an empty batch
(`fetch_history` returns the empty list in both cases) is a no-op apart
from the 10-second backoff: the stores are untouched, nothing is pruned,
no forecast is issued, no message is composed, and the loop goes straight
into the next retry — and this holds across any number of consecutive
empty/failed fetches, the worker loop still iterating (RUNNING) with no
accumulated messages and an unchanged store. -/
theorem empty_fetch_is_noop :
    (∀ (now : Nat) (db : DB), prediction_cycle now [] db = (db, none, 10)) ∧
    (∀ (now : Nat) (fetches : List (List Round)) (db : DB),
      (∀ f ∈ fetches, f = []) → run_cycles now fetches db = (db, [])) := by
  constructor
  · intro now db
    rfl
  · intro now fetches db h
    rw [run_cycles]
    exact run_cycles_aux now fetches db [] h

/-- Witness for the hypothesis of the C8 theorem: three empty fetches in a
row leave a concrete store unchanged and post nothing. -/
theorem empty_fetch_is_noop_witness :
    (∀ f ∈ ([[], [], []] : List (List Round)), f = []) ∧
      run_cycles 0 [[], [], []] ⟨[⟨"100", 7, "", 0⟩], []⟩ =
        (⟨[⟨"100", 7, "", 0⟩], []⟩, []) :=
  ⟨by decide, empty_fetch_is_noop.2 0 [[], [], []] _ (by decide)⟩
